import Mathlib

/-!
# Verification of the spotuify OAuth authentication core

Shallow embedding of `src/spotuify/api/auth.py`: the callback listener
(`CallbackHandler.do_GET`), the accept loop and orchestration in
`SpotifyAuth.authenticate`, the cache logic in `SpotifyAuth.get_cached_token`,
and `SpotifyAuth.logout`.

The wrapped `spotipy.SpotifyOAuth` collaborator is modelled as a record of
pure response functions (`OAuthEnv`); observable side effects (port bind,
browser open, hook invocations, token-endpoint calls, cache writes, HTTP
responses) are collected in a `Trace`.  Inbound traffic during the wait loop
is a finite list of `Event`s: either an HTTP GET with a request path, or a
`handle_request` timeout (120 s elapsing with no connection).
-/

/-- A token dictionary as returned by spotipy (`token_info`).  Only the
fields the auth module reads are modelled. -/
structure TokenInfo where
  access_token : String
  refresh_token : String
  deriving DecidableEq, Repr

/-- Splits a character list at every occurrence of `sep`, like Python
`s.split(sep)` for a one-character separator (empty pieces kept, the empty
string yielding one empty piece). -/
def splitChar (sep : Char) : List Char → List (List Char)
  | [] => [[]]
  | c :: rest =>
    match splitChar sep rest with
    | [] => if c = sep then [[], []] else [[c]]
    | piece :: pieces =>
        if c = sep then [] :: piece :: pieces else (c :: piece) :: pieces

/-- Splits a character list at the first occurrence of `sep`, like Python
`s.split(sep, 1)`: `none` when `sep` does not occur, otherwise the part
before it and the part after it (which may contain further `sep`s). -/
def splitFirst (sep : Char) : List Char → Option (List Char × List Char)
  | [] => none
  | c :: rest =>
    if c = sep then some ([], rest)
    else (splitFirst sep rest).map fun q => (c :: q.1, q.2)

/-- `urllib.parse.parse_qsl` with default arguments (separator `&`, blank
values dropped, fields without `=` dropped), restricted to queries free of
percent-escapes and `+` signs (the only queries the callback contract
involves); percent-decoding is therefore the identity and is omitted. -/
def parse_qs (query : String) : List (String × String) :=
  (splitChar '&' query.data).filterMap fun nv =>
    if nv = [] then none
    else match splitFirst '=' nv with
      | none => none
      | some (k, v) =>
          if v = [] then none else some (String.mk k, String.mk v)

/-- `params[k][0]` when `k in params`, `none` otherwise: the first value
listed for key `k`. -/
def qsFirst (params : List (String × String)) (k : String) : Option String :=
  (params.find? fun p => p.1 = k).map (·.2)

/-- `urllib.parse.urlparse(path).query`: drop the fragment at the first `#`,
then take everything after the first `?` of what remains. -/
def urlQuery (path : String) : String :=
  let beforeFrag :=
    match splitFirst '#' path.data with
    | none => path.data
    | some q => q.1
  match splitFirst '?' beforeFrag with
  | none => ""
  | some q => String.mk q.2

/-- The `CallbackHandler` class attributes `auth_code` and `error`: the
mailbox through which the listener hands the terminal result to the
orchestrator. -/
structure Mailbox where
  auth_code : Option String
  error : Option String
  deriving DecidableEq, Repr

/-- The reset state `auth_code = None, error = None`. -/
def mb0 : Mailbox := ⟨none, none⟩

/-- The body of an HTTP response written by the handler.  The HTML text is
presentation only (spec §4.1: no control-flow significance beyond the status
code), so it is abstracted to its kind; the failure page interpolates the
error string. -/
inductive Body where
  | successPage : Body
  | failurePage : String → Body
  | empty : Body
  deriving DecidableEq, Repr

/-- Status code and body of one HTTP response sent by the listener. -/
structure HttpResponse where
  status : Nat
  body : Body
  deriving DecidableEq, Repr

/-- `CallbackHandler.do_GET`: parse the request path's query string; on a
`code` parameter record it in the mailbox and answer 200 with the success
page; else on an `error` parameter record it and answer 400 with the failure
page; else answer 400 with an empty body and leave the mailbox untouched. -/
def do_GET (path : String) (mb : Mailbox) : Mailbox × HttpResponse :=
  let params := parse_qs (urlQuery path)
  match qsFirst params "code" with
  | some c => ({ mb with auth_code := some c }, ⟨200, Body.successPage⟩)
  | none =>
    match qsFirst params "error" with
    | some e => ({ mb with error := some e }, ⟨400, Body.failurePage e⟩)
    | none => (mb, ⟨400, Body.empty⟩)

/-- One unit of inbound traffic observed by `server.handle_request()`:
either an HTTP GET carrying a request path, or the 120-second
`server.timeout` elapsing with no connection (in which case
`BaseServer.handle_timeout`, a no-op, runs). -/
inductive Event where
  | request : String → Event
  | timeout : Event
  deriving DecidableEq, Repr

/-- Outcome of running the wait loop
`while auth_code is None and error is None: server.handle_request()`
against a finite trace of events: either the loop exited (a terminal result
is in the mailbox), or the trace was exhausted with the loop still
spinning (`authenticate` is still blocked inside the `while`). -/
inductive LoopOutcome where
  | terminal : Mailbox → List HttpResponse → LoopOutcome
  | stillWaiting : Mailbox → List HttpResponse → LoopOutcome
  deriving DecidableEq, Repr

/-- The wait loop of `SpotifyAuth.authenticate` (auth.py lines 147-148).
The loop condition is checked before each `handle_request`; a timeout event
leaves the mailbox unchanged (`handle_timeout` is a no-op) and the loop
re-enters `handle_request`; a request event runs `do_GET` and appends its
response. -/
def acceptLoop : List Event → Mailbox → List HttpResponse → LoopOutcome
  | evs, mb, acc =>
    if mb.auth_code.isSome || mb.error.isSome then LoopOutcome.terminal mb acc
    else
      match evs with
      | [] => LoopOutcome.stillWaiting mb acc
      | Event.timeout :: rest => acceptLoop rest mb acc
      | Event.request p :: rest =>
          acceptLoop rest (do_GET p mb).1 (acc ++ [(do_GET p mb).2])

/-- The mailbox carried by a loop outcome. -/
def LoopOutcome.mb : LoopOutcome → Mailbox
  | terminal mb _ => mb
  | stillWaiting mb _ => mb

/-- The responses carried by a loop outcome. -/
def LoopOutcome.responses : LoopOutcome → List HttpResponse
  | terminal _ rs => rs
  | stillWaiting _ rs => rs

/-- Python truthiness of an optional string (`if CallbackHandler.error:`):
true exactly when present and non-empty. -/
def pyTruthy : Option String → Bool
  | none => false
  | some s => !s.isEmpty

/-- Model of the wrapped `spotipy.SpotifyOAuth` collaborator, as a record of
the responses its calls produce during one `authenticate()` run:
`get_cached_token` (the token file's content, `none` on cache miss),
`is_token_expired`, `refresh_access_token` (refresh-token argument to either
a new token or a raised exception message), and `get_access_token`
(authorization-code argument to either a new token or a raised exception
message). -/
structure OAuthEnv where
  get_cached_token : Option TokenInfo
  is_token_expired : TokenInfo → Bool
  refresh_access_token : String → Except String TokenInfo
  get_access_token : String → Except String TokenInfo

/-- Observable side effects of one `authenticate()` run: whether the
callback server was constructed (port bound) and closed (port released),
whether the browser was opened, how often each optional hook fired (with
the arguments passed to the error hook), the calls made to the token
endpoint, the token last written to the cache file (spotipy persists on
every successful exchange or refresh), and the HTTP responses the listener
sent. -/
structure Trace where
  serverBound : Bool
  serverClosed : Bool
  browserOpened : Bool
  waitingCalls : Nat
  successCalls : Nat
  errorCalls : List String
  refreshCalls : List String
  exchangeCalls : List String
  persisted : Option TokenInfo
  responses : List HttpResponse
  deriving DecidableEq, Repr

/-- The empty trace: nothing has happened yet. -/
def Trace.init : Trace :=
  ⟨false, false, false, 0, 0, [], [], [], none, []⟩

/-- `SpotifyAuth.get_cached_token` (auth.py lines 87-97): read the cached
token; if present and expired, refresh it — the `refresh_access_token` call
is NOT wrapped in try/except, so a refresh failure propagates as an
exception (`Except.error`); otherwise return the cached or refreshed token,
or `none` when the cache is empty. -/
def get_cached_token (oauth : OAuthEnv) (tr : Trace) :
    Except String (Option TokenInfo) × Trace :=
  match oauth.get_cached_token with
  | none => (Except.ok none, tr)
  | some t =>
    if oauth.is_token_expired t then
      let tr := { tr with refreshCalls := tr.refreshCalls ++ [t.refresh_token] }
      match oauth.refresh_access_token t.refresh_token with
      | Except.ok t2 => (Except.ok (some t2), { tr with persisted := some t2 })
      | Except.error e => (Except.error e, tr)
    else (Except.ok (some t), tr)

/-- Result of one `authenticate()` run: the function returned a token dict
or `None`, raised an uncaught exception, or is still blocked inside the
wait loop after the whole event trace has been consumed. -/
inductive AuthResult where
  | returned : Option TokenInfo → AuthResult
  | raised : String → AuthResult
  | blocked : AuthResult
  deriving DecidableEq, Repr

/-- `SpotifyAuth.authenticate` (auth.py lines 99-169), run against the
inbound traffic `events` and with the `CallbackHandler` class attributes
holding `mbPrev` from any previous attempt.  `hasWaiting`, `hasSuccess`,
`hasError` say which of the optional hooks the caller supplied.  Steps:
check the cache (returning early on a hit, after firing the success hook);
else reset the handler mailbox, bind the server, open the browser, fire the
waiting hook, run the wait loop; on loop exit close the server and dispatch
on the mailbox: an error fires the error hook and returns `None`; a code is
exchanged — success fires the success hook and returns the token, an
exchange exception is caught, fires the error hook and returns `None`. -/
def authenticate (oauth : OAuthEnv) (hasWaiting hasSuccess hasError : Bool)
    (events : List Event) (mbPrev : Mailbox) : AuthResult × Trace :=
  match get_cached_token oauth Trace.init with
  | (Except.error e, tr) => (AuthResult.raised e, tr)
  | (Except.ok (some t), tr) =>
      let tr := if hasSuccess then { tr with successCalls := tr.successCalls + 1 } else tr
      (AuthResult.returned (some t), tr)
  | (Except.ok none, tr) =>
      let _ := mbPrev
      let mb := mb0
      let tr := { tr with serverBound := true }
      let tr := { tr with browserOpened := true }
      let tr := if hasWaiting then { tr with waitingCalls := tr.waitingCalls + 1 } else tr
      match acceptLoop events mb [] with
      | LoopOutcome.stillWaiting _ rs => (AuthResult.blocked, { tr with responses := rs })
      | LoopOutcome.terminal mb rs =>
          let tr := { tr with responses := rs, serverClosed := true }
          if pyTruthy mb.error then
            let e := mb.error.getD ""
            let tr := if hasError then { tr with errorCalls := tr.errorCalls ++ [e] } else tr
            (AuthResult.returned none, tr)
          else if pyTruthy mb.auth_code then
            let c := mb.auth_code.getD ""
            let tr := { tr with exchangeCalls := tr.exchangeCalls ++ [c] }
            match oauth.get_access_token c with
            | Except.ok t =>
                let tr := { tr with persisted := some t }
                let tr := if hasSuccess then { tr with successCalls := tr.successCalls + 1 } else tr
                (AuthResult.returned (some t), tr)
            | Except.error e =>
                let tr := if hasError then { tr with errorCalls := tr.errorCalls ++ [e] } else tr
                (AuthResult.returned none, tr)
          else (AuthResult.returned none, tr)

/-- State of a `SpotifyAuth` instance as `logout` sees it: the content of
the file at `config.token_cache_path` (`none` when the file does not
exist), and the memoised `_oauth` session object. -/
structure SpotifyAuthState where
  token_cache : Option String
  _oauth : Option OAuthEnv

/-- `os.remove`: deletes the file, raising `FileNotFoundError` when it does
not exist. -/
def os_remove (file : Option String) : Except String (Option String) :=
  match file with
  | some _ => Except.ok none
  | none => Except.error "FileNotFoundError"

/-- `SpotifyAuth.logout` (auth.py lines 178-184): remove the token cache
file only if it exists (so `os.remove` is never reached on a missing file),
then drop the memoised `_oauth` instance. -/
def logout (s : SpotifyAuthState) : Except String SpotifyAuthState :=
  match (if s.token_cache.isSome then os_remove s.token_cache
         else Except.ok s.token_cache) with
  | Except.ok f => Except.ok { token_cache := f, _oauth := none }
  | Except.error e => Except.error e

/-! ## Sample collaborator environments used to exercise the theorems -/

/-- A cached, unexpired token. -/
def tokA : TokenInfo := ⟨"cached-access", "cached-refresh"⟩

/-- Environment with a valid cached token: the remote endpoints are never
reached. -/
def envCacheHit : OAuthEnv :=
  ⟨some tokA, fun _ => false,
   fun _ => Except.error "unreached", fun _ => Except.error "unreached"⟩

/-- Environment with an empty token cache and a token endpoint that
exchanges any code successfully. -/
def envNoCache : OAuthEnv :=
  ⟨none, fun _ => false,
   fun _ => Except.error "unreached",
   fun c => Except.ok ⟨String.append "access-from-" c, "new-refresh"⟩⟩

/-- Environment with an expired cached token whose refresh call raises. -/
def envRefreshFails : OAuthEnv :=
  ⟨some tokA, fun _ => true,
   fun _ => Except.error "refresh failed: network unreachable",
   fun _ => Except.error "unreached"⟩

/-! ## Helper lemmas -/

/-- `logout` always succeeds and always leaves the empty state: cache file
deleted (or already absent) and `_oauth` dropped. -/
theorem logout_eq (s : SpotifyAuthState) :
    logout s = Except.ok ⟨none, none⟩ := by
  rcases s with ⟨tc, oa⟩
  cases tc <;> simp [logout, os_remove]

/-- If the mailbox already holds a terminal result, the wait loop exits at
once, sending no further response. -/
theorem acceptLoop_stop (evs : List Event) (mb : Mailbox)
    (acc : List HttpResponse) (h : (mb.auth_code.isSome || mb.error.isSome) = true) :
    acceptLoop evs mb acc = LoopOutcome.terminal mb acc := by
  match evs with
  | [] => simp [acceptLoop, h]
  | Event.timeout :: rest => simp [acceptLoop, h]
  | Event.request p :: rest => simp [acceptLoop, h]

/-- A trace of nothing but `handle_request` timeouts leaves the wait loop
spinning on the empty mailbox: `handle_timeout` is a no-op and the loop
condition stays true. -/
theorem acceptLoop_timeouts (n : Nat) (acc : List HttpResponse) :
    acceptLoop (List.replicate n Event.timeout) mb0 acc
      = LoopOutcome.stillWaiting mb0 acc := by
  induction n with
  | zero => simp [acceptLoop, mb0]
  | succ n ih => rw [List.replicate_succ]; simpa [acceptLoop, mb0] using ih

/-- `SpotifyAuth.get_cached_token` never touches the success-hook counter. -/
theorem get_cached_token_successCalls (oauth : OAuthEnv) (tr : Trace) :
    (get_cached_token oauth tr).2.successCalls = tr.successCalls := by
  unfold get_cached_token
  split <;> try rfl
  split <;> [skip; rfl]
  split <;> rfl

/-! ## Claims -/

/-- C6: `logout()` is idempotent: it does not raise when the token cache
file is absent, it always leaves no persisted token and no memoised
orchestrator session, and running it twice equals running it once. -/
theorem logout_idempotent (s : SpotifyAuthState) :
    logout s = Except.ok ⟨none, none⟩
    ∧ (logout s).bind logout = logout s := by
  refine ⟨logout_eq s, ?_⟩
  rw [logout_eq s]
  simp [Except.bind, logout_eq]

/-- C2 (code bug): with a cached but expired token whose refresh call
fails, `authenticate()` neither returns a token nor reports through the
error hook — the refresh exception propagates uncaught out of
`authenticate()` (the `refresh_access_token` call at auth.py line 95 is not
wrapped in try/except, nor is the `get_cached_token()` call at line 117),
contradicting the claimed fall-through to the browser-interactive step. -/
theorem refresh_failure_raises :
    (authenticate envRefreshFails true true true [] mb0).1
      = AuthResult.raised "refresh failed: network unreachable"
    ∧ (authenticate envRefreshFails true true true [] mb0).2.errorCalls = []
    ∧ (authenticate envRefreshFails true true true [] mb0).2.serverBound = false := by
  refine ⟨rfl, rfl, rfl⟩

/-- C1 (code bug): when no request carrying `code` or `error` ever arrives,
`authenticate()` does not terminate: each 120-second `handle_request`
timeout is a no-op (`handle_timeout` does nothing) and the wait loop
re-enters `handle_request`, for any number `n` of consecutive timeouts.
The error hook is never invoked and `server_close()` is never reached, so
the port is not released — contradicting the claimed timeout outcome. -/
theorem timeout_never_fails (n : Nat) :
    acceptLoop (List.replicate n Event.timeout) mb0 [] = LoopOutcome.stillWaiting mb0 []
    ∧ (authenticate envNoCache true true true (List.replicate n Event.timeout) mb0).1
        = AuthResult.blocked
    ∧ (authenticate envNoCache true true true (List.replicate n Event.timeout) mb0).2.errorCalls
        = []
    ∧ (authenticate envNoCache true true true (List.replicate n Event.timeout) mb0).2.serverClosed
        = false := by
  have h := acceptLoop_timeouts n []
  refine ⟨h, ?_, ?_, ?_⟩ <;>
    simp [authenticate, get_cached_token, envNoCache, h, Trace.init]

/-- C3: whenever a valid, unexpired token is in the cache, `authenticate()`
returns it without binding the callback listener's port and without opening
a browser. -/
theorem cache_hit_no_listener (oauth : OAuthEnv) (t : TokenInfo)
    (hW hS hE : Bool) (events : List Event) (mbPrev : Mailbox)
    (hcache : oauth.get_cached_token = some t)
    (hfresh : oauth.is_token_expired t = false) :
    (authenticate oauth hW hS hE events mbPrev).1 = AuthResult.returned (some t)
    ∧ (authenticate oauth hW hS hE events mbPrev).2.serverBound = false
    ∧ (authenticate oauth hW hS hE events mbPrev).2.browserOpened = false := by
  have hgc : get_cached_token oauth Trace.init = (Except.ok (some t), Trace.init) := by
    simp [get_cached_token, hcache, hfresh]
  refine ⟨?_, ?_, ?_⟩ <;> simp [authenticate, hgc] <;> cases hS <;> simp [Trace.init]

/-- Witness for C3 at the concrete cache-hit environment. -/
theorem cache_hit_no_listener_witness :
    (authenticate envCacheHit true true true [] mb0).1 = AuthResult.returned (some tokA)
    ∧ (authenticate envCacheHit true true true [] mb0).2.serverBound = false
    ∧ (authenticate envCacheHit true true true [] mb0).2.browserOpened = false :=
  cache_hit_no_listener envCacheHit tokA true true true [] mb0 rfl rfl

/-- C4: a callback request whose query carries `code=ABC123`, arriving on
the empty mailbox, is answered with status 200, terminates the wait loop
(whatever traffic would have followed), and makes `authenticate()` issue
the token-exchange call exactly once, with `ABC123`. -/
theorem code_callback_exchanged (oauth : OAuthEnv) (hW hS hE : Bool)
    (p : String) (rest : List Event) (mbPrev : Mailbox)
    (hcode : qsFirst (parse_qs (urlQuery p)) "code" = some "ABC123")
    (hcache : oauth.get_cached_token = none) :
    acceptLoop (Event.request p :: rest) mb0 []
      = LoopOutcome.terminal ⟨some "ABC123", none⟩ [⟨200, Body.successPage⟩]
    ∧ (authenticate oauth hW hS hE (Event.request p :: rest) mbPrev).2.exchangeCalls
      = ["ABC123"] := by
  have hget : do_GET p mb0 = (⟨some "ABC123", none⟩, ⟨200, Body.successPage⟩) := by
    simp [do_GET, hcode, mb0]
  have hloop : acceptLoop (Event.request p :: rest) mb0 []
      = LoopOutcome.terminal ⟨some "ABC123", none⟩ [⟨200, Body.successPage⟩] := by
    rw [show acceptLoop (Event.request p :: rest) mb0 []
          = acceptLoop rest (do_GET p mb0).1 ([] ++ [(do_GET p mb0).2]) by
        simp [acceptLoop, mb0]]
    rw [hget]
    exact acceptLoop_stop rest _ _ rfl
  refine ⟨hloop, ?_⟩
  have hgc : get_cached_token oauth Trace.init = (Except.ok none, Trace.init) := by
    simp [get_cached_token, hcache]
  simp only [authenticate, hgc, hloop]
  cases hx : oauth.get_access_token "ABC123" <;>
    cases hW <;> cases hS <;> cases hE <;>
      simp [pyTruthy, hx, Trace.init, show "ABC123".isEmpty = false from rfl]

/-- Witness for C4 at the literal request `/callback?code=ABC123`. -/
theorem code_callback_exchanged_witness :
    acceptLoop [Event.request "/callback?code=ABC123"] mb0 []
      = LoopOutcome.terminal ⟨some "ABC123", none⟩ [⟨200, Body.successPage⟩]
    ∧ (authenticate envNoCache true true true [Event.request "/callback?code=ABC123"] mb0).2.exchangeCalls
      = ["ABC123"] :=
  code_callback_exchanged envNoCache true true true "/callback?code=ABC123" [] mb0
    (by decide) rfl

/-- C5: a callback request whose query carries `error=access_denied` (and
no `code`) is answered with status 400 and the failure page, makes the
error hook fire exactly once with the verbatim string `access_denied`,
causes no token-exchange call and no cache write, and `authenticate()`
returns `None`. -/
theorem error_callback_denied (oauth : OAuthEnv) (hW hS : Bool)
    (p : String) (rest : List Event) (mbPrev : Mailbox)
    (hcache : oauth.get_cached_token = none)
    (hcode : qsFirst (parse_qs (urlQuery p)) "code" = none)
    (herr : qsFirst (parse_qs (urlQuery p)) "error" = some "access_denied") :
    (authenticate oauth hW hS true (Event.request p :: rest) mbPrev).1
      = AuthResult.returned none
    ∧ (authenticate oauth hW hS true (Event.request p :: rest) mbPrev).2.errorCalls
      = ["access_denied"]
    ∧ (authenticate oauth hW hS true (Event.request p :: rest) mbPrev).2.exchangeCalls
      = []
    ∧ (authenticate oauth hW hS true (Event.request p :: rest) mbPrev).2.persisted
      = none
    ∧ (authenticate oauth hW hS true (Event.request p :: rest) mbPrev).2.responses
      = [⟨400, Body.failurePage "access_denied"⟩] := by
  have hget : do_GET p mb0
      = (⟨none, some "access_denied"⟩, ⟨400, Body.failurePage "access_denied"⟩) := by
    simp [do_GET, hcode, herr, mb0]
  have hloop : acceptLoop (Event.request p :: rest) mb0 []
      = LoopOutcome.terminal ⟨none, some "access_denied"⟩
          [⟨400, Body.failurePage "access_denied"⟩] := by
    rw [show acceptLoop (Event.request p :: rest) mb0 []
          = acceptLoop rest (do_GET p mb0).1 ([] ++ [(do_GET p mb0).2]) by
        simp [acceptLoop, mb0]]
    rw [hget]
    exact acceptLoop_stop rest _ _ rfl
  have hgc : get_cached_token oauth Trace.init = (Except.ok none, Trace.init) := by
    simp [get_cached_token, hcache]
  refine ⟨?_, ?_, ?_, ?_, ?_⟩ <;>
    simp only [authenticate, hgc, hloop] <;>
      cases hW <;> cases hS <;>
        simp [pyTruthy, Trace.init, show "access_denied".isEmpty = false from rfl]

/-- Witness for C5 at the literal request `/callback?error=access_denied`. -/
theorem error_callback_denied_witness :
    (authenticate envNoCache true true true
        [Event.request "/callback?error=access_denied"] mb0).1
      = AuthResult.returned none
    ∧ (authenticate envNoCache true true true
        [Event.request "/callback?error=access_denied"] mb0).2.errorCalls
      = ["access_denied"]
    ∧ (authenticate envNoCache true true true
        [Event.request "/callback?error=access_denied"] mb0).2.exchangeCalls
      = []
    ∧ (authenticate envNoCache true true true
        [Event.request "/callback?error=access_denied"] mb0).2.persisted
      = none
    ∧ (authenticate envNoCache true true true
        [Event.request "/callback?error=access_denied"] mb0).2.responses
      = [⟨400, Body.failurePage "access_denied"⟩] :=
  error_callback_denied envNoCache true true "/callback?error=access_denied" [] mb0
    rfl (by decide) (by decide)

/-- C7: a request carrying neither `code` nor `error` is answered with
status 400 and an empty body, leaves the mailbox untouched, and the wait
loop simply continues with the remaining traffic — such a request never
ends the wait. -/
theorem malformed_request_continues (p : String) (mb : Mailbox)
    (hcode : qsFirst (parse_qs (urlQuery p)) "code" = none)
    (herr : qsFirst (parse_qs (urlQuery p)) "error" = none) :
    do_GET p mb = (mb, ⟨400, Body.empty⟩)
    ∧ (∀ rest acc, acceptLoop (Event.request p :: rest) mb0 acc
        = acceptLoop rest mb0 (acc ++ [⟨400, Body.empty⟩]))
    ∧ acceptLoop [Event.request p] mb0 []
        = LoopOutcome.stillWaiting mb0 [⟨400, Body.empty⟩] := by
  have hget : ∀ mb' : Mailbox, do_GET p mb' = (mb', ⟨400, Body.empty⟩) := by
    intro mb'; simp [do_GET, hcode, herr]
  have hstep : ∀ rest acc, acceptLoop (Event.request p :: rest) mb0 acc
      = acceptLoop rest mb0 (acc ++ [⟨400, Body.empty⟩]) := by
    intro rest acc
    rw [show acceptLoop (Event.request p :: rest) mb0 acc
          = acceptLoop rest (do_GET p mb0).1 (acc ++ [(do_GET p mb0).2]) by
        simp [acceptLoop, mb0]]
    rw [hget mb0]
  refine ⟨hget mb, hstep, ?_⟩
  rw [hstep [] []]
  simp [acceptLoop, mb0]

/-- Witness for C7 at the literal request `/favicon.ico`. -/
theorem malformed_request_continues_witness :
    do_GET "/favicon.ico" mb0 = (mb0, ⟨400, Body.empty⟩)
    ∧ (∀ rest acc, acceptLoop (Event.request "/favicon.ico" :: rest) mb0 acc
        = acceptLoop rest mb0 (acc ++ [⟨400, Body.empty⟩]))
    ∧ acceptLoop [Event.request "/favicon.ico"] mb0 []
        = LoopOutcome.stillWaiting mb0 [⟨400, Body.empty⟩] :=
  malformed_request_continues "/favicon.ico" mb0 (by decide) (by decide)

/-- C9: on a request carrying both `code` and `error`, the `code` branch
takes precedence: the code is recorded, the response status is 200 with the
success page, the error field is never written, and the wait loop ends as a
success. -/
theorem code_takes_precedence (p c e : String) (mb : Mailbox)
    (hcode : qsFirst (parse_qs (urlQuery p)) "code" = some c)
    (_herr : qsFirst (parse_qs (urlQuery p)) "error" = some e) :
    do_GET p mb = ({ mb with auth_code := some c }, ⟨200, Body.successPage⟩)
    ∧ (do_GET p mb).1.error = mb.error
    ∧ ∀ rest, acceptLoop (Event.request p :: rest) mb0 []
        = LoopOutcome.terminal ⟨some c, none⟩ [⟨200, Body.successPage⟩] := by
  have hget : ∀ mb' : Mailbox,
      do_GET p mb' = ({ mb' with auth_code := some c }, ⟨200, Body.successPage⟩) := by
    intro mb'; simp [do_GET, hcode]
  refine ⟨hget mb, by rw [hget mb], ?_⟩
  intro rest
  rw [show acceptLoop (Event.request p :: rest) mb0 []
        = acceptLoop rest (do_GET p mb0).1 ([] ++ [(do_GET p mb0).2]) by
      simp [acceptLoop, mb0]]
  rw [hget mb0]
  exact acceptLoop_stop rest _ _ rfl

/-- Witness for C9 at the literal request
`/callback?code=AAA&error=access_denied`. -/
theorem code_takes_precedence_witness :
    do_GET "/callback?code=AAA&error=access_denied" mb0
      = ({ mb0 with auth_code := some "AAA" }, ⟨200, Body.successPage⟩)
    ∧ (do_GET "/callback?code=AAA&error=access_denied" mb0).1.error = mb0.error
    ∧ ∀ rest, acceptLoop (Event.request "/callback?code=AAA&error=access_denied" :: rest) mb0 []
        = LoopOutcome.terminal ⟨some "AAA", none⟩ [⟨200, Body.successPage⟩] :=
  code_takes_precedence "/callback?code=AAA&error=access_denied" "AAA" "access_denied" mb0
    (by decide) (by decide)

/-- A request path is terminal when its query carries a `code` or an
`error` parameter. -/
def isTerminalReq (p : String) : Bool :=
  (qsFirst (parse_qs (urlQuery p)) "code").isSome
    || (qsFirst (parse_qs (urlQuery p)) "error").isSome

/-- The path of the first terminal request in an event trace, if any. -/
def firstTerm : List Event → Option String
  | [] => none
  | Event.timeout :: rest => firstTerm rest
  | Event.request p :: rest => if isTerminalReq p then some p else firstTerm rest

/-- Mutual exclusivity of the mailbox fields: at most one is set. -/
def exclusive (mb : Mailbox) : Prop := mb.auth_code = none ∨ mb.error = none

/-- A non-terminal request leaves the mailbox untouched and gets the bare
400 answer. -/
theorem do_GET_of_not_terminal (p : String) (mb : Mailbox)
    (h : isTerminalReq p = false) :
    do_GET p mb = (mb, ⟨400, Body.empty⟩) := by
  unfold do_GET
  cases hc : qsFirst (parse_qs (urlQuery p)) "code" with
  | some c => rw [isTerminalReq] at h; simp [hc] at h
  | none =>
    cases he : qsFirst (parse_qs (urlQuery p)) "error" with
    | some e => rw [isTerminalReq] at h; simp [hc, he] at h
    | none => simp [hc, he]

/-- A terminal request puts a terminal result into the mailbox. -/
theorem do_GET_of_terminal (p : String) (mb : Mailbox)
    (h : isTerminalReq p = true) :
    ((do_GET p mb).1.auth_code.isSome || (do_GET p mb).1.error.isSome) = true := by
  unfold do_GET
  cases hc : qsFirst (parse_qs (urlQuery p)) "code" with
  | some c => simp [hc]
  | none =>
    cases he : qsFirst (parse_qs (urlQuery p)) "error" with
    | some e => simp [hc, he]
    | none => rw [isTerminalReq] at h; simp [hc, he] at h

/-- Any single request applied to the reset mailbox sets at most one
field. -/
theorem do_GET_exclusive (p : String) : exclusive ((do_GET p mb0).1) := by
  unfold do_GET exclusive
  cases hc : qsFirst (parse_qs (urlQuery p)) "code" with
  | some c => simp [hc, mb0]
  | none =>
    cases he : qsFirst (parse_qs (urlQuery p)) "error" with
    | some e => simp [hc, he, mb0]
    | none => simp [hc, he, mb0]

/-- Characterisation of the wait loop started on the reset mailbox: a
terminal exit carries exactly the mailbox written by the first terminal
request of the trace (applied to the reset mailbox — so each field is
written at most once), and while no terminal request has arrived the
mailbox is still the reset one. -/
theorem acceptLoop_mb0_spec (evs : List Event) (acc : List HttpResponse) :
    (∀ mb rs, acceptLoop evs mb0 acc = LoopOutcome.terminal mb rs →
       ∃ p, firstTerm evs = some p ∧ mb = (do_GET p mb0).1)
    ∧ (∀ mb rs, acceptLoop evs mb0 acc = LoopOutcome.stillWaiting mb rs → mb = mb0) := by
  induction evs generalizing acc with
  | nil =>
    constructor
    · intro mb rs h
      simp [acceptLoop, mb0] at h
    · intro mb rs h
      simp [acceptLoop, mb0] at h
      exact h.1.symm
  | cons ev rest ih =>
    cases ev with
    | timeout =>
      have hstep : acceptLoop (Event.timeout :: rest) mb0 acc
          = acceptLoop rest mb0 acc := by
        simp [acceptLoop, mb0]
      rw [hstep]
      simpa [firstTerm] using ih acc
    | request p =>
      have hstep : acceptLoop (Event.request p :: rest) mb0 acc
          = acceptLoop rest (do_GET p mb0).1 (acc ++ [(do_GET p mb0).2]) := by
        simp [acceptLoop, mb0]
      by_cases ht : isTerminalReq p
      · rw [hstep, acceptLoop_stop _ _ _ (do_GET_of_terminal p mb0 ht)]
        constructor
        · intro mb rs h
          injection h with h1 h2
          exact ⟨p, by simp [firstTerm, ht], h1.symm⟩
        · intro mb rs h
          simp at h
      · rw [hstep, do_GET_of_not_terminal p mb0 (by simpa using ht)]
        simpa [firstTerm, ht] using ih (acc ++ [⟨400, Body.empty⟩])

/-- C8: the mailbox invariant.  The result of an attempt is independent of
whatever the handler class attributes held before the attempt (they are
reset before the listener starts); at every point of the wait loop at most
one of the two fields is set; a terminal exit's mailbox was written by the
first terminal request of the trace (so the fields are set at most once,
by that request); and while no terminal request has arrived both fields
are still empty. -/
theorem mailbox_invariant (oauth : OAuthEnv) (hW hS hE : Bool)
    (evs : List Event) (mbPrev mbPrev' : Mailbox) :
    authenticate oauth hW hS hE evs mbPrev = authenticate oauth hW hS hE evs mbPrev'
    ∧ exclusive ((acceptLoop evs mb0 []).mb)
    ∧ (∀ mb rs, acceptLoop evs mb0 [] = LoopOutcome.terminal mb rs →
        ∃ p, firstTerm evs = some p ∧ mb = (do_GET p mb0).1)
    ∧ (∀ mb rs, acceptLoop evs mb0 [] = LoopOutcome.stillWaiting mb rs → mb = mb0) := by
  obtain ⟨hterm, hwait⟩ := acceptLoop_mb0_spec evs []
  refine ⟨rfl, ?_, hterm, hwait⟩
  cases hout : acceptLoop evs mb0 [] with
  | terminal mb rs =>
    obtain ⟨p, _, hmb⟩ := hterm mb rs hout
    simpa [LoopOutcome.mb, hmb] using do_GET_exclusive p
  | stillWaiting mb rs =>
    have hmb := hwait mb rs hout
    simp [LoopOutcome.mb, hmb, exclusive, mb0]

/-- Witness for C8: the singleton trace carrying `code=Z` exits the loop
with exactly that code recorded. -/
theorem mailbox_invariant_witness :
    ∃ p, firstTerm [Event.request "/callback?code=Z"] = some p
      ∧ (⟨some "Z", none⟩ : Mailbox) = (do_GET p mb0).1 :=
  (mailbox_invariant envNoCache true true true [Event.request "/callback?code=Z"]
      mb0 mb0).2.2.1
    ⟨some "Z", none⟩ [⟨200, Body.successPage⟩] (by decide)

/-- C10: the success hook fires exactly once (when supplied) on every run
of `authenticate()` that returns a token — including the pure cache-hit
path — and never on a run that returns `None`. -/
theorem success_hook_exactly_once (oauth : OAuthEnv) (hW hS hE : Bool)
    (events : List Event) (mbPrev : Mailbox) :
    ((authenticate oauth hW hS hE events mbPrev).1 = AuthResult.returned none →
      (authenticate oauth hW hS hE events mbPrev).2.successCalls = 0)
    ∧ ∀ t : TokenInfo,
      (authenticate oauth hW hS hE events mbPrev).1 = AuthResult.returned (some t) →
        (authenticate oauth hW hS hE events mbPrev).2.successCalls
          = if hS then 1 else 0 := by
  have hsc := get_cached_token_successCalls oauth Trace.init
  unfold authenticate
  cases hgc : get_cached_token oauth Trace.init with
  | mk res tr =>
    rw [hgc] at hsc
    simp only [Trace.init] at hsc
    cases res with
    | error e => simp
    | ok o =>
      cases o with
      | some t => cases hS <;> simp [hsc]
      | none =>
        cases hl : acceptLoop events mb0 [] with
        | stillWaiting mb rs => simp [hl]
        | terminal mb rs =>
          simp only [hl]
          by_cases he : pyTruthy mb.error
          · cases hW <;> cases hS <;> cases hE <;> simp [he, hsc]
          · by_cases hc : pyTruthy mb.auth_code
            · cases hx : oauth.get_access_token (mb.auth_code.getD "") <;>
                cases hW <;> cases hS <;> cases hE <;> simp [he, hc, hx, hsc]
            · cases hW <;> cases hS <;> simp [he, hc, hsc]

/-- Witness for C10 on the cache-hit path: a token comes back and the
success hook fired once. -/
theorem success_hook_exactly_once_witness :
    (authenticate envCacheHit true true true [] mb0).1 = AuthResult.returned (some tokA)
    ∧ (authenticate envCacheHit true true true [] mb0).2.successCalls
      = if true then 1 else 0 :=
  ⟨rfl, (success_hook_exactly_once envCacheHit true true true [] mb0).2 tokA rfl⟩
